import Mathlib

/-!
# Verification of the hyperlink HTML link-extractor emitter

Shallow embedding of `src/src/html/parser.rs`: the URL scheme screen
(`is_bad_schema`), the srcset splitter, the parser scratch buffers, and the
`HyperlinkEmitter` tokenizer-callback state machine.

Strings are modelled as `List Char` (the Rust code works on UTF-8 `str`/byte
slices; all byte-level comparisons in the source are against ASCII bytes, and
on ASCII data the byte-level and char-level scans coincide — a non-ASCII
`char`'s UTF-8 bytes are all ≥ 0x80 and match none of the ASCII byte patterns,
exactly as the char itself matches none of the ASCII char patterns).

External collaborators (`Document::join`, `ParagraphWalker`) are kept opaque:
`join` is an arbitrary function field of `Document`, and the emitter is
parametric over a `WalkerOps` record, mirroring the Rust generic parameter
`P: ParagraphWalker`.
-/

/-- Character list of a string literal, used to write the source's string
constants as `List Char` values. -/
def strL (s : String) : List Char := s.data

/-- From `is_paragraph_tag` (parser.rs lines 9-12):
`tag == b"p" || tag == b"li" || tag == b"dt" || tag == b"dd"`. -/
def is_paragraph_tag (tag : List Char) : Bool :=
  tag = strL "p" ∨ tag = strL "li" ∨ tag = strL "dt" ∨ tag = strL "dd"

/-- From `try_normalize_href_value` (parser.rs lines 14-17): `input.trim()`.
Rust `str::trim` strips Unicode whitespace at both ends; `Char.isWhitespace`
covers the ASCII subset, which is all the source's callers rely on. -/
def try_normalize_href_value (input : List Char) : List Char :=
  ((input.dropWhile Char.isWhitespace).reverse.dropWhile Char.isWhitespace).reverse

/-- ASCII alphabetic test, from the match pattern `b'a'..=b'z' | b'A'..=b'Z'`. -/
def isAsciiAlphaCh (c : Char) : Bool :=
  ('a' ≤ c && c ≤ 'z') || ('A' ≤ c && c ≤ 'Z')

/-- A byte allowed inside an RFC 2396 scheme, from the loop arms of
`is_bad_schema` (parser.rs lines 39-50): ASCII alphanumeric or `+`, `-`, `.`. -/
def isSchemeChar (c : Char) : Bool :=
  isAsciiAlphaCh c || ('0' ≤ c && c ≤ '9') || c == '+' || c == '-' || c == '.'

/-- The scanning loop of `is_bad_schema` (parser.rs lines 39-50): skip scheme
characters; the first other character yields true iff it is `:`; end of input
yields false. -/
def schemaScan : List Char → Bool
  | [] => false
  | c :: rest => if isSchemeChar c then schemaScan rest else c == ':'

/-- From `is_bad_schema` (parser.rs lines 19-53). -/
def is_bad_schema (url : List Char) : Bool :=
  match url with
  | [] => false
  | first_char :: rest =>
    if (first_char :: rest).take 2 = ['/', '/'] then true
    else if !isAsciiAlphaCh first_char then false
    else schemaScan rest

example : is_bad_schema (strL "//") = true := by decide
example : is_bad_schema (strL "http:") = true := by decide
example : is_bad_schema (strL "http:/") = true := by decide
example : is_bad_schema (strL "javascript:alert") = true := by decide
example : is_bad_schema (strL "MAILTO:x") = true := by decide
example : is_bad_schema (strL "") = false := by decide
example : is_bad_schema (strL "http") = false := by decide
example : is_bad_schema (strL "http/") = false := by decide
example : is_bad_schema (strL "/path") = false := by decide
example : is_bad_schema (strL "../x") = false := by decide
example : is_bad_schema (strL "#frag") = false := by decide
example : is_bad_schema (strL "?q=1") = false := by decide

/-- Rust `candidate.split_whitespace().next()`: the first maximal run of
non-whitespace characters, or `none` if the segment is all whitespace. -/
def firstToken (s : List Char) : Option (List Char) :=
  match s.dropWhile Char.isWhitespace with
  | [] => none
  | c :: rest => some (c :: rest.takeWhile (fun ch => !ch.isWhitespace))

/-- The iterator pipeline of `extract_used_link_srcset` (parser.rs lines
108-112): `value.split(',')`, then the first whitespace-delimited token of
each segment, dropping segments with no token and empty tokens. -/
def srcsetCandidates (value : List Char) : List (List Char) :=
  ((value.splitOn ',').filterMap firstToken).filter (fun v => !v.isEmpty)

example : srcsetCandidates (strL "a 1x, b 2x, , c") = [strL "a", strL "b", strL "c"] := by
  decide

/-- From `ParserBuffers` (parser.rs lines 55-61): the four scratch strings. -/
structure ParserBuffers where
  current_tag_name : List Char
  current_attribute_name : List Char
  current_attribute_value : List Char
  last_start_tag : List Char
deriving DecidableEq

/-- The `#[derive(Default)]` instance of `ParserBuffers`: four empty strings. -/
def ParserBuffers.mkDefault : ParserBuffers :=
  { current_tag_name := []
    current_attribute_name := []
    current_attribute_value := []
    last_start_tag := [] }

/-- From `ParserBuffers::reset` (parser.rs lines 63-70): clear all four
strings. -/
def ParserBuffers.reset (b : ParserBuffers) : ParserBuffers :=
  { b with
    current_tag_name := []
    current_attribute_name := []
    current_attribute_value := []
    last_start_tag := [] }

/-- From `UsedLink` (crate::html): resolved href, containing document path,
optional paragraph fingerprint. -/
structure UsedLink (π : Type) where
  href : List Char
  path : List Char
  paragraph : Option π
deriving DecidableEq

/-- From `DefinedLink` (crate::html): the arena-resolved self-reference. -/
structure DefinedLink where
  href : List Char
deriving DecidableEq

/-- From `Link` (crate::html): the two record variants. -/
inductive Link (π : Type) where
  | Uses : UsedLink π → Link π
  | Defines : DefinedLink → Link π
deriving DecidableEq

/-- The `Document` collaborator (crate::html), kept opaque as the spec
directs: a path and a `join(arena, check_anchors, value)` operation. The
arena argument is a pure allocation detail and is dropped. -/
structure Document where
  path : List Char
  join : Bool → List Char → List Char

/-- Modelled from the spec: the `ParagraphWalker` trait (`crate::paragraph`
is not under `src/`) — any implementation exposing `update(bytes)` and
`finish_paragraph() -> Option<Fingerprint>`, where `finish_paragraph` also
resets the accumulated text (the new walker state is returned as the second
component). The emitter is generic over these operations, mirroring the Rust
type parameter `P: ParagraphWalker`. -/
structure WalkerOps (σ π : Type) where
  update : σ → List Char → σ
  finish : σ → Option π × σ

/-- From `HyperlinkEmitter` (parser.rs lines 72-83). The borrowed `arena`
and `document` fields are passed separately to the operations; the remaining
fields are the mutable per-parse state. -/
structure HyperlinkEmitter (σ π : Type) where
  paragraph_walker : σ
  link_buf : List (Link π)
  in_paragraph : Bool
  last_paragraph_i : Nat
  get_paragraphs : Bool
  buffers : ParserBuffers
  current_tag_is_closing : Bool
  check_anchors : Bool
deriving DecidableEq

/-- From `extract_used_link` (parser.rs lines 90-102). -/
def extract_used_link {σ π : Type} (doc : Document) (st : HyperlinkEmitter σ π) :
    HyperlinkEmitter σ π :=
  let value := try_normalize_href_value st.buffers.current_attribute_value
  if is_bad_schema value then st
  else
    { st with
      link_buf := st.link_buf ++
        [Link.Uses
          { href := doc.join st.check_anchors value
            path := doc.path
            paragraph := none }] }

/-- From `extract_used_link_srcset` (parser.rs lines 104-123): iterate the
srcset candidates, skip those with a bad schema, push one `Uses` record per
survivor. -/
def extract_used_link_srcset {σ π : Type} (doc : Document) (st : HyperlinkEmitter σ π) :
    HyperlinkEmitter σ π :=
  let value := try_normalize_href_value st.buffers.current_attribute_value
  { st with
    link_buf :=
      (srcsetCandidates value).foldl
        (fun acc v =>
          if is_bad_schema v then acc
          else acc ++
            [Link.Uses
              { href := doc.join st.check_anchors v
                path := doc.path
                paragraph := none }])
        st.link_buf }

/-- From `extract_anchor_def` (parser.rs lines 125-136): only when
`check_anchors`; the href passed to `join` is `"#" ++ trimmed value`. -/
def extract_anchor_def {σ π : Type} (doc : Document) (st : HyperlinkEmitter σ π) :
    HyperlinkEmitter σ π :=
  if st.check_anchors then
    { st with
      link_buf := st.link_buf ++
        [Link.Defines
          { href := doc.join st.check_anchors
              ('#' :: try_normalize_href_value st.buffers.current_attribute_value) }] }
  else st

/-- The two buffer clears at the end of `flush_old_attribute`
(parser.rs lines 152-153). -/
def clearAttrs {σ π : Type} (st : HyperlinkEmitter σ π) : HyperlinkEmitter σ π :=
  { st with
    buffers :=
      { st.buffers with current_attribute_name := [], current_attribute_value := [] } }

/-- From `flush_old_attribute` (parser.rs lines 138-155): dispatch on the
`(current_tag_name, current_attribute_name)` pair in the source's match-arm
order, then clear both attribute buffers. -/
def flush_old_attribute {σ π : Type} (doc : Document) (st : HyperlinkEmitter σ π) :
    HyperlinkEmitter σ π :=
  clearAttrs
    (if (st.buffers.current_tag_name = strL "link" ∨ st.buffers.current_tag_name = strL "area" ∨
          st.buffers.current_tag_name = strL "a") ∧
        st.buffers.current_attribute_name = strL "href" then
      extract_used_link doc st
    else if st.buffers.current_tag_name = strL "a" ∧
        st.buffers.current_attribute_name = strL "name" then
      extract_anchor_def doc st
    else if (st.buffers.current_tag_name = strL "img" ∨ st.buffers.current_tag_name = strL "script" ∨
          st.buffers.current_tag_name = strL "iframe") ∧
        st.buffers.current_attribute_name = strL "src" then
      extract_used_link doc st
    else if st.buffers.current_tag_name = strL "img" ∧
        st.buffers.current_attribute_name = strL "srcset" then
      extract_used_link_srcset doc st
    else if st.buffers.current_tag_name = strL "object" ∧
        st.buffers.current_attribute_name = strL "data" then
      extract_used_link doc st
    else if st.buffers.current_attribute_name = strL "id" then
      extract_anchor_def doc st
    else st)

/-- One pass of the back-patch loop in `emit_current_tag` (parser.rs lines
208-215): a `Uses` record gets its `paragraph` field overwritten, a
`Defines` record is left alone. -/
def stampLink {π : Type} (p : Option π) : Link π → Link π
  | Link.Uses u => Link.Uses { u with paragraph := p }
  | Link.Defines d => Link.Defines d

/-- The mutation of the slice `link_buf[last_paragraph_i..]` performed by the
back-patch loop: the prefix below `i` is untouched, the suffix is stamped. -/
def stampFrom {π : Type} (i : Nat) (p : Option π) (l : List (Link π)) : List (Link π) :=
  l.take i ++ (l.drop i).map (stampLink p)

/-- From `Emitter::set_last_start_tag` (parser.rs lines 164-169): clear and
refill `last_start_tag` with the supplied value (`unwrap_or_default`). -/
def set_last_start_tag {σ π : Type} (st : HyperlinkEmitter σ π) (s : Option (List Char)) :
    HyperlinkEmitter σ π :=
  { st with buffers := { st.buffers with last_start_tag := s.getD [] } }

/-- From `Emitter::emit_string` (parser.rs lines 175-179). -/
def emit_string {σ π : Type} (W : WalkerOps σ π) (st : HyperlinkEmitter σ π)
    (c : List Char) : HyperlinkEmitter σ π :=
  if st.get_paragraphs && st.in_paragraph then
    { st with paragraph_walker := W.update st.paragraph_walker c }
  else st

/-- From `Emitter::init_start_tag` (parser.rs lines 181-184). -/
def init_start_tag {σ π : Type} (st : HyperlinkEmitter σ π) : HyperlinkEmitter σ π :=
  { st with
    buffers := { st.buffers with current_tag_name := [] }
    current_tag_is_closing := false }

/-- From `Emitter::init_end_tag` (parser.rs lines 186-189). -/
def init_end_tag {σ π : Type} (st : HyperlinkEmitter σ π) : HyperlinkEmitter σ π :=
  { st with
    buffers := { st.buffers with current_tag_name := [] }
    current_tag_is_closing := true }

/-- From `Emitter::emit_current_tag` (parser.rs lines 191-222): flush the
pending attribute; on an opening tag copy the tag name to `last_start_tag`
and, for a paragraph-class tag, open a paragraph (resetting the walker); on a
closing paragraph-class tag finish the paragraph and, if one was open,
back-patch the suffix `link_buf[last_paragraph_i..]`; finally clear the tag
name. -/
def emit_current_tag {σ π : Type} (W : WalkerOps σ π) (doc : Document)
    (st0 : HyperlinkEmitter σ π) : HyperlinkEmitter σ π :=
  let st := flush_old_attribute doc st0
  let st1 :=
    if !st.current_tag_is_closing then
      let st' :=
        { st with buffers := { st.buffers with last_start_tag := st.buffers.current_tag_name } }
      if is_paragraph_tag st'.buffers.current_tag_name then
        { st' with
          in_paragraph := true
          last_paragraph_i := st'.link_buf.length
          paragraph_walker := (W.finish st'.paragraph_walker).2 }
      else st'
    else if is_paragraph_tag st.buffers.current_tag_name then
      let st' :=
        if st.in_paragraph then
          { st with
            link_buf := stampFrom st.last_paragraph_i (W.finish st.paragraph_walker).1 st.link_buf
            in_paragraph := false }
        else st
      { st' with
        last_paragraph_i := st'.link_buf.length
        paragraph_walker := (W.finish st.paragraph_walker).2 }
    else st
  { st1 with buffers := { st1.buffers with current_tag_name := [] } }

/-- From `Emitter::set_self_closing` (parser.rs lines 224-228). -/
def set_self_closing {σ π : Type} (st : HyperlinkEmitter σ π) : HyperlinkEmitter σ π :=
  if is_paragraph_tag st.buffers.current_tag_name then { st with in_paragraph := false }
  else st

/-- From `Emitter::push_tag_name` (parser.rs lines 230-232). -/
def push_tag_name {σ π : Type} (st : HyperlinkEmitter σ π) (s : List Char) :
    HyperlinkEmitter σ π :=
  { st with
    buffers := { st.buffers with current_tag_name := st.buffers.current_tag_name ++ s } }

/-- From `Emitter::push_attribute_name` (parser.rs lines 238-240). -/
def push_attribute_name {σ π : Type} (st : HyperlinkEmitter σ π) (s : List Char) :
    HyperlinkEmitter σ π :=
  { st with
    buffers :=
      { st.buffers with
        current_attribute_name := st.buffers.current_attribute_name ++ s } }

/-- From `Emitter::push_attribute_value` (parser.rs lines 242-244). -/
def push_attribute_value {σ π : Type} (st : HyperlinkEmitter σ π) (s : List Char) :
    HyperlinkEmitter σ π :=
  { st with
    buffers :=
      { st.buffers with
        current_attribute_value := st.buffers.current_attribute_value ++ s } }

/-- From `Emitter::current_is_appropriate_end_tag_token` (parser.rs lines
246-250). -/
def current_is_appropriate_end_tag_token {σ π : Type} (st : HyperlinkEmitter σ π) : Bool :=
  st.current_tag_is_closing && !st.buffers.current_tag_name.isEmpty &&
    st.buffers.current_tag_name = st.buffers.last_start_tag

/-- The tokenizer callback surface consumed by the emitter (the state-mutating
`Emitter` trait methods, parser.rs lines 157-265). `emit_error` drops its
`html5gum::Error` payload unread, so the payload is not modelled. -/
inductive Ev where
  | set_last_start_tag (s : Option (List Char))
  | emit_string (s : List Char)
  | init_start_tag
  | init_end_tag
  | emit_current_tag
  | set_self_closing
  | push_tag_name (s : List Char)
  | init_attribute
  | push_attribute_name (s : List Char)
  | push_attribute_value (s : List Char)
  | emit_current_comment
  | emit_current_doctype
  | emit_eof
  | emit_error
  | init_comment
  | init_doctype
  | push_comment (s : List Char)
  | push_doctype_name (s : List Char)
  | push_doctype_public_identifier (s : List Char)
  | push_doctype_system_identifier (s : List Char)
  | set_doctype_public_identifier (s : List Char)
  | set_doctype_system_identifier (s : List Char)
  | set_force_quirks
deriving DecidableEq

/-- One tokenizer callback applied to the emitter state. `init_attribute`
(parser.rs lines 234-236) flushes the previous attribute; the comment,
doctype, error and EOF callbacks have empty bodies in the source
(parser.rs lines 252-264). -/
def emitterStep {σ π : Type} (W : WalkerOps σ π) (doc : Document)
    (st : HyperlinkEmitter σ π) : Ev → HyperlinkEmitter σ π
  | Ev.set_last_start_tag s => set_last_start_tag st s
  | Ev.emit_string s => emit_string W st s
  | Ev.init_start_tag => init_start_tag st
  | Ev.init_end_tag => init_end_tag st
  | Ev.emit_current_tag => emit_current_tag W doc st
  | Ev.set_self_closing => set_self_closing st
  | Ev.push_tag_name s => push_tag_name st s
  | Ev.init_attribute => flush_old_attribute doc st
  | Ev.push_attribute_name s => push_attribute_name st s
  | Ev.push_attribute_value s => push_attribute_value st s
  | Ev.emit_current_comment => st
  | Ev.emit_current_doctype => st
  | Ev.emit_eof => st
  | Ev.emit_error => st
  | Ev.init_comment => st
  | Ev.init_doctype => st
  | Ev.push_comment _ => st
  | Ev.push_doctype_name _ => st
  | Ev.push_doctype_public_identifier _ => st
  | Ev.push_doctype_system_identifier _ => st
  | Ev.set_doctype_public_identifier _ => st
  | Ev.set_doctype_system_identifier _ => st
  | Ev.set_force_quirks => st

/-- A whole callback sequence applied in order. -/
def runEmitter {σ π : Type} (W : WalkerOps σ π) (doc : Document)
    (st : HyperlinkEmitter σ π) (es : List Ev) : HyperlinkEmitter σ π :=
  es.foldl (emitterStep W doc) st

/-- Modelled from the spec: the initial emitter state for one document parse
(the construction site, `crate::html`, is not under `src/`): fresh paragraph
state (`in_paragraph = false`, `last_paragraph_i = 0`), an empty output
buffer, and caller-supplied scratch buffers, walker state and flags. -/
def initEmitter {σ π : Type} (bufs : ParserBuffers) (w : σ) (gp ca : Bool) :
    HyperlinkEmitter σ π :=
  { paragraph_walker := w
    link_buf := []
    in_paragraph := false
    last_paragraph_i := 0
    get_paragraphs := gp
    buffers := bufs
    current_tag_is_closing := false
    check_anchors := ca }

/-- A concrete paragraph-walker instantiation for witnesses: accumulate the
text, fingerprint a non-empty paragraph by its text, reset on finish (the
spec's hash-accumulating walker with the identity hash). -/
def accumWalker : WalkerOps (List Char) (List Char) :=
  { update := fun w s => w ++ s
    finish := fun w => (if w.isEmpty then none else some w, []) }

/-- A concrete document for witnesses: `join` returns the raw value. -/
def docX : Document :=
  { path := strL "doc.html"
    join := fun _ v => v }

/-- The callback sequence the tokenizer produces for `<a href=u>`: one used
link is emitted. -/
def linkEvents (u : List Char) : List Ev :=
  [Ev.init_start_tag, Ev.push_tag_name (strL "a"), Ev.init_attribute,
   Ev.push_attribute_name (strL "href"), Ev.push_attribute_value u,
   Ev.emit_current_tag]

/-- The callback sequence for an opening `<p>` tag. -/
def openParaEvents : List Ev :=
  [Ev.init_start_tag, Ev.push_tag_name (strL "p"), Ev.emit_current_tag]

/-- The callback sequence for a closing `</p>` tag. -/
def closeParaEvents : List Ev :=
  [Ev.init_end_tag, Ev.push_tag_name (strL "p"), Ev.emit_current_tag]

/-- The callback sequence for a self-closing `<p/>` tag: `set_self_closing`
arrives before `emit_current_tag`. -/
def selfCloseParaEvents : List Ev :=
  [Ev.init_start_tag, Ev.push_tag_name (strL "p"), Ev.set_self_closing,
   Ev.emit_current_tag]

/-! ## Characterizations of the record-producing helpers -/

/-- The records `extract_used_link` appends: none when the trimmed value has
a bad schema, otherwise one `Uses` record. -/
def usedLinkRecords (π : Type) (doc : Document) (ca : Bool) (value : List Char) :
    List (Link π) :=
  if is_bad_schema value then []
  else [Link.Uses { href := doc.join ca value, path := doc.path, paragraph := none }]

/-- The records `extract_used_link_srcset` appends: one `Uses` record per
candidate surviving the schema screen, in candidate order. -/
def srcsetRecords (π : Type) (doc : Document) (ca : Bool) (value : List Char) :
    List (Link π) :=
  ((srcsetCandidates value).filter (fun v => !is_bad_schema v)).map
    (fun v => Link.Uses { href := doc.join ca v, path := doc.path, paragraph := none })

/-- The records `extract_anchor_def` appends: one `Defines` record when
`check_anchors`, none otherwise. -/
def anchorRecords (π : Type) (doc : Document) (ca : Bool) (value : List Char) :
    List (Link π) :=
  if ca then [Link.Defines { href := doc.join ca ('#' :: value) }] else []

theorem extract_used_link_eq {σ π : Type} (doc : Document) (st : HyperlinkEmitter σ π) :
    extract_used_link doc st =
      { st with
        link_buf := st.link_buf ++
          usedLinkRecords π doc st.check_anchors
            (try_normalize_href_value st.buffers.current_attribute_value) } := by
  obtain ⟨w, lb, ip, lpi, gp, bufs, cl, ca⟩ := st
  by_cases h : is_bad_schema (try_normalize_href_value bufs.current_attribute_value) <;>
    simp [extract_used_link, usedLinkRecords, h]

theorem extract_anchor_def_eq {σ π : Type} (doc : Document) (st : HyperlinkEmitter σ π) :
    extract_anchor_def doc st =
      { st with
        link_buf := st.link_buf ++
          anchorRecords π doc st.check_anchors
            (try_normalize_href_value st.buffers.current_attribute_value) } := by
  obtain ⟨w, lb, ip, lpi, gp, bufs, cl, ca⟩ := st
  cases ca <;> simp [extract_anchor_def, anchorRecords]

theorem srcset_foldl {π : Type} (doc : Document) (ca : Bool) :
    ∀ (cands : List (List Char)) (acc : List (Link π)),
      cands.foldl
        (fun acc v =>
          if is_bad_schema v then acc
          else acc ++ [Link.Uses { href := doc.join ca v, path := doc.path, paragraph := none }])
        acc =
      acc ++ ((cands.filter (fun v => !is_bad_schema v)).map
        (fun v => Link.Uses { href := doc.join ca v, path := doc.path, paragraph := none })) := by
  intro cands
  induction cands with
  | nil => intro acc; simp
  | cons c cs ih =>
    intro acc
    by_cases h : is_bad_schema c <;> simp [List.foldl, h, ih, List.append_assoc]

theorem extract_used_link_srcset_eq {σ π : Type} (doc : Document) (st : HyperlinkEmitter σ π) :
    extract_used_link_srcset doc st =
      { st with
        link_buf := st.link_buf ++
          srcsetRecords π doc st.check_anchors
            (try_normalize_href_value st.buffers.current_attribute_value) } := by
  simp only [extract_used_link_srcset, srcsetRecords]
  rw [srcset_foldl]

/-- The records one `flush_old_attribute` call appends, as a function of the
tag name `t`, attribute name `a`, trimmed attribute value `v` and the
`check_anchors` flag, following the source's match-arm order. -/
def flushRecords (π : Type) (doc : Document) (t a v : List Char) (ca : Bool) :
    List (Link π) :=
  if (t = strL "link" ∨ t = strL "area" ∨ t = strL "a") ∧ a = strL "href" then
    usedLinkRecords π doc ca v
  else if t = strL "a" ∧ a = strL "name" then anchorRecords π doc ca v
  else if (t = strL "img" ∨ t = strL "script" ∨ t = strL "iframe") ∧ a = strL "src" then
    usedLinkRecords π doc ca v
  else if t = strL "img" ∧ a = strL "srcset" then srcsetRecords π doc ca v
  else if t = strL "object" ∧ a = strL "data" then usedLinkRecords π doc ca v
  else if a = strL "id" then anchorRecords π doc ca v
  else []

theorem flush_eq {σ π : Type} (doc : Document) (st : HyperlinkEmitter σ π) :
    flush_old_attribute doc st =
      { st with
        link_buf := st.link_buf ++
          flushRecords π doc st.buffers.current_tag_name st.buffers.current_attribute_name
            (try_normalize_href_value st.buffers.current_attribute_value) st.check_anchors
        buffers :=
          { st.buffers with current_attribute_name := [], current_attribute_value := [] } } := by
  unfold flush_old_attribute flushRecords clearAttrs
  split
  · rw [extract_used_link_eq]
  · split
    · rw [extract_anchor_def_eq]
    · split
      · rw [extract_used_link_eq]
      · split
        · rw [extract_used_link_srcset_eq]
        · split
          · rw [extract_used_link_eq]
          · split
            · rw [extract_anchor_def_eq]
            · simp

/-! ## Small facts about `flushRecords` and `stampFrom` -/

/-- With an empty attribute name no dispatch row matches. -/
theorem flushRecords_attr_nil {π : Type} (doc : Document) (t v : List Char) (ca : Bool) :
    flushRecords π doc t [] v ca = [] := by
  have h1 : ¬(([] : List Char) = strL "href") := by decide
  have h2 : ¬(([] : List Char) = strL "name") := by decide
  have h3 : ¬(([] : List Char) = strL "src") := by decide
  have h4 : ¬(([] : List Char) = strL "srcset") := by decide
  have h5 : ¬(([] : List Char) = strL "data") := by decide
  have h6 : ¬(([] : List Char) = strL "id") := by decide
  simp [flushRecords, h1, h2, h3, h4, h5, h6]

/-- Flushing with an empty attribute name only clears the attribute
buffers. -/
theorem flush_attr_nil {σ π : Type} (doc : Document) (st : HyperlinkEmitter σ π)
    (ha : st.buffers.current_attribute_name = []) :
    flush_old_attribute doc st = clearAttrs st := by
  rw [flush_eq, ha, flushRecords_attr_nil]
  simp [clearAttrs]

theorem stampFrom_zero {π : Type} (p : Option π) (l : List (Link π)) :
    stampFrom 0 p l = l.map (stampLink p) := by
  simp [stampFrom]

theorem stampFrom_cons {π : Type} (n : Nat) (p : Option π) (a : Link π) (l : List (Link π)) :
    stampFrom (n + 1) p (a :: l) = a :: stampFrom n p l := by
  simp [stampFrom]

theorem stampFrom_length {π : Type} (p : Option π) :
    ∀ (n : Nat) (l : List (Link π)), (stampFrom n p l).length = l.length := by
  intro n l
  induction l generalizing n with
  | nil => simp [stampFrom]
  | cons a l ih =>
    cases n with
    | zero => simp [stampFrom_zero]
    | succ n => rw [stampFrom_cons]; simp [ih]

theorem stampFrom_getElem_lt {π : Type} (p : Option π) :
    ∀ (n i : Nat) (l : List (Link π)), i < n → (stampFrom n p l)[i]? = l[i]? := by
  intro n i l
  induction l generalizing n i with
  | nil => intro _; simp [stampFrom]
  | cons a l ih =>
    intro hi
    cases n with
    | zero => omega
    | succ n =>
      rw [stampFrom_cons]
      cases i with
      | zero => simp
      | succ i => simpa using ih n i (by omega)

theorem stampFrom_getElem_ge {π : Type} (p : Option π) :
    ∀ (n i : Nat) (l : List (Link π)), n ≤ i →
      (stampFrom n p l)[i]? = (l[i]?).map (stampLink p) := by
  intro n i l
  induction l generalizing n i with
  | nil => intro _; simp [stampFrom]
  | cons a l ih =>
    intro hn
    cases n with
    | zero => rw [stampFrom_zero, List.getElem?_map]
    | succ n =>
      rw [stampFrom_cons]
      cases i with
      | zero => omega
      | succ i => simpa using ih n i (by omega)

/-! ## The central step invariant -/

/-- Every callback preserves `last_paragraph_i ≤ link_buf.length`, never
decreases `last_paragraph_i`, and never modifies a link stored below
`last_paragraph_i`. -/
theorem emitterStep_inv {σ π : Type} (W : WalkerOps σ π) (doc : Document)
    (st : HyperlinkEmitter σ π) (e : Ev)
    (h : st.last_paragraph_i ≤ st.link_buf.length) :
    st.last_paragraph_i ≤ (emitterStep W doc st e).last_paragraph_i ∧
    (emitterStep W doc st e).last_paragraph_i ≤ (emitterStep W doc st e).link_buf.length ∧
    ∀ i, i < st.last_paragraph_i → (emitterStep W doc st e).link_buf[i]? = st.link_buf[i]? := by
  cases e
  case set_self_closing =>
    have hstep : emitterStep W doc st Ev.set_self_closing = set_self_closing st := rfl
    rw [hstep]
    unfold set_self_closing
    split <;> exact ⟨Nat.le_refl _, h, fun i _ => rfl⟩
  case emit_string s =>
    have hstep : emitterStep W doc st (Ev.emit_string s) = emit_string W st s := rfl
    rw [hstep]
    unfold emit_string
    split <;> exact ⟨Nat.le_refl _, h, fun i _ => rfl⟩
  case init_attribute =>
    have hstep : emitterStep W doc st Ev.init_attribute = flush_old_attribute doc st := rfl
    rw [hstep, flush_eq]
    refine ⟨Nat.le_refl _, ?_, ?_⟩
    · simpa using Nat.le_trans h (Nat.le_add_right _ _)
    · intro i hi
      exact List.getElem?_append_left (lt_of_lt_of_le hi h)
  case emit_current_tag =>
    have hstep : emitterStep W doc st Ev.emit_current_tag = emit_current_tag W doc st := rfl
    rw [hstep]
    unfold emit_current_tag
    rw [flush_eq]
    by_cases hc : st.current_tag_is_closing <;>
      by_cases hp : is_paragraph_tag st.buffers.current_tag_name
    · -- closing paragraph-class tag
      by_cases hip : st.in_paragraph
      · simp only [hc, hp, hip, Bool.not_true, if_false, if_true, ite_true, ite_false]
        refine ⟨?_, ?_, ?_⟩
        · simp [stampFrom_length, List.length_append]
          omega
        · simp [stampFrom_length]
        · intro i hi
          show (stampFrom st.last_paragraph_i _ (st.link_buf ++ _))[i]? = _
          rw [stampFrom_getElem_lt _ _ _ _ hi]
          exact List.getElem?_append_left (lt_of_lt_of_le hi h)
      · simp only [hc, hp, hip, Bool.not_true, if_false, if_true, ite_true, ite_false]
        refine ⟨?_, ?_, ?_⟩
        · simp [List.length_append]
          omega
        · simp
        · intro i hi
          exact List.getElem?_append_left (lt_of_lt_of_le hi h)
    · -- closing non-paragraph tag
      simp only [hc, hp, Bool.not_true, if_false, if_true, ite_true, ite_false]
      refine ⟨Nat.le_refl _, ?_, ?_⟩
      · simpa using Nat.le_trans h (Nat.le_add_right _ _)
      · intro i hi
        exact List.getElem?_append_left (lt_of_lt_of_le hi h)
    · -- opening paragraph-class tag
      simp only [hc, hp, Bool.not_false, if_false, if_true, ite_true, ite_false]
      refine ⟨?_, ?_, ?_⟩
      · simp [List.length_append]
        omega
      · simp
      · intro i hi
        exact List.getElem?_append_left (lt_of_lt_of_le hi h)
    · -- opening non-paragraph tag
      simp only [hc, hp, Bool.not_false, if_false, if_true, ite_true, ite_false]
      refine ⟨Nat.le_refl _, ?_, ?_⟩
      · simpa using Nat.le_trans h (Nat.le_add_right _ _)
      · intro i hi
        exact List.getElem?_append_left (lt_of_lt_of_le hi h)
  all_goals exact ⟨Nat.le_refl _, h, fun i _ => rfl⟩

theorem runEmitter_nil {σ π : Type} (W : WalkerOps σ π) (doc : Document)
    (st : HyperlinkEmitter σ π) : runEmitter W doc st [] = st := rfl

theorem runEmitter_cons {σ π : Type} (W : WalkerOps σ π) (doc : Document)
    (st : HyperlinkEmitter σ π) (e : Ev) (es : List Ev) :
    runEmitter W doc st (e :: es) = runEmitter W doc (emitterStep W doc st e) es := rfl

theorem runEmitter_append {σ π : Type} (W : WalkerOps σ π) (doc : Document)
    (st : HyperlinkEmitter σ π) (es1 es2 : List Ev) :
    runEmitter W doc st (es1 ++ es2) = runEmitter W doc (runEmitter W doc st es1) es2 :=
  List.foldl_append _ _ _ _

/-- The step invariant, folded over a whole callback sequence. -/
theorem runEmitter_inv {σ π : Type} (W : WalkerOps σ π) (doc : Document) :
    ∀ (es : List Ev) (st : HyperlinkEmitter σ π),
      st.last_paragraph_i ≤ st.link_buf.length →
      st.last_paragraph_i ≤ (runEmitter W doc st es).last_paragraph_i ∧
      (runEmitter W doc st es).last_paragraph_i ≤ (runEmitter W doc st es).link_buf.length ∧
      ∀ i, i < st.last_paragraph_i →
        (runEmitter W doc st es).link_buf[i]? = st.link_buf[i]? := by
  intro es
  induction es with
  | nil => intro st h; exact ⟨Nat.le_refl _, h, fun i _ => rfl⟩
  | cons e es ih =>
    intro st h
    obtain ⟨h1, h2, h3⟩ := emitterStep_inv W doc st e h
    obtain ⟨g1, g2, g3⟩ := ih (emitterStep W doc st e) h2
    rw [runEmitter_cons]
    refine ⟨Nat.le_trans h1 g1, g2, ?_⟩
    intro i hi
    calc (runEmitter W doc (emitterStep W doc st e) es).link_buf[i]?
        = (emitterStep W doc st e).link_buf[i]? := g3 i (lt_of_lt_of_le hi h1)
      _ = st.link_buf[i]? := h3 i hi

/-! ## Branch computations of `emit_current_tag` -/

theorem emit_current_tag_open_nonpara {σ π : Type} (W : WalkerOps σ π) (doc : Document)
    (st : HyperlinkEmitter σ π)
    (hc : st.current_tag_is_closing = false)
    (hp : is_paragraph_tag st.buffers.current_tag_name = false) :
    emit_current_tag W doc st =
      { st with
        link_buf := st.link_buf ++
          flushRecords π doc st.buffers.current_tag_name st.buffers.current_attribute_name
            (try_normalize_href_value st.buffers.current_attribute_value) st.check_anchors
        buffers :=
          { current_tag_name := [], current_attribute_name := [],
            current_attribute_value := [], last_start_tag := st.buffers.current_tag_name } } := by
  unfold emit_current_tag
  rw [flush_eq]
  simp [hc, hp]

theorem emit_current_tag_open_para {σ π : Type} (W : WalkerOps σ π) (doc : Document)
    (st : HyperlinkEmitter σ π)
    (hc : st.current_tag_is_closing = false)
    (hp : is_paragraph_tag st.buffers.current_tag_name = true) :
    emit_current_tag W doc st =
      { st with
        link_buf := st.link_buf ++
          flushRecords π doc st.buffers.current_tag_name st.buffers.current_attribute_name
            (try_normalize_href_value st.buffers.current_attribute_value) st.check_anchors
        buffers :=
          { current_tag_name := [], current_attribute_name := [],
            current_attribute_value := [], last_start_tag := st.buffers.current_tag_name }
        in_paragraph := true
        last_paragraph_i :=
          (st.link_buf ++
            flushRecords π doc st.buffers.current_tag_name st.buffers.current_attribute_name
              (try_normalize_href_value st.buffers.current_attribute_value)
              st.check_anchors).length
        paragraph_walker := (W.finish st.paragraph_walker).2 } := by
  unfold emit_current_tag
  rw [flush_eq]
  simp [hc, hp]

theorem emit_current_tag_close_para_in {σ π : Type} (W : WalkerOps σ π) (doc : Document)
    (st : HyperlinkEmitter σ π)
    (hc : st.current_tag_is_closing = true)
    (hp : is_paragraph_tag st.buffers.current_tag_name = true)
    (hip : st.in_paragraph = true) :
    emit_current_tag W doc st =
      { st with
        link_buf :=
          stampFrom st.last_paragraph_i (W.finish st.paragraph_walker).1
            (st.link_buf ++
              flushRecords π doc st.buffers.current_tag_name st.buffers.current_attribute_name
                (try_normalize_href_value st.buffers.current_attribute_value) st.check_anchors)
        buffers :=
          { current_tag_name := [], current_attribute_name := [],
            current_attribute_value := [], last_start_tag := st.buffers.last_start_tag }
        in_paragraph := false
        last_paragraph_i :=
          (st.link_buf ++
            flushRecords π doc st.buffers.current_tag_name st.buffers.current_attribute_name
              (try_normalize_href_value st.buffers.current_attribute_value)
              st.check_anchors).length
        paragraph_walker := (W.finish st.paragraph_walker).2 } := by
  unfold emit_current_tag
  rw [flush_eq]
  simp [hc, hp, hip, stampFrom_length]

theorem emit_current_tag_close_para_out {σ π : Type} (W : WalkerOps σ π) (doc : Document)
    (st : HyperlinkEmitter σ π)
    (hc : st.current_tag_is_closing = true)
    (hp : is_paragraph_tag st.buffers.current_tag_name = true)
    (hip : st.in_paragraph = false) :
    emit_current_tag W doc st =
      { st with
        link_buf := st.link_buf ++
          flushRecords π doc st.buffers.current_tag_name st.buffers.current_attribute_name
            (try_normalize_href_value st.buffers.current_attribute_value) st.check_anchors
        buffers :=
          { current_tag_name := [], current_attribute_name := [],
            current_attribute_value := [], last_start_tag := st.buffers.last_start_tag }
        last_paragraph_i :=
          (st.link_buf ++
            flushRecords π doc st.buffers.current_tag_name st.buffers.current_attribute_name
              (try_normalize_href_value st.buffers.current_attribute_value)
              st.check_anchors).length
        paragraph_walker := (W.finish st.paragraph_walker).2 } := by
  unfold emit_current_tag
  rw [flush_eq]
  simp [hc, hp, hip]

theorem emit_current_tag_close_nonpara {σ π : Type} (W : WalkerOps σ π) (doc : Document)
    (st : HyperlinkEmitter σ π)
    (hc : st.current_tag_is_closing = true)
    (hp : is_paragraph_tag st.buffers.current_tag_name = false) :
    emit_current_tag W doc st =
      { st with
        link_buf := st.link_buf ++
          flushRecords π doc st.buffers.current_tag_name st.buffers.current_attribute_name
            (try_normalize_href_value st.buffers.current_attribute_value) st.check_anchors
        buffers :=
          { current_tag_name := [], current_attribute_name := [],
            current_attribute_value := [], last_start_tag := st.buffers.last_start_tag } } := by
  unfold emit_current_tag
  rw [flush_eq]
  simp [hc, hp]

/-! ## Dispatch rows of `flushRecords` -/

theorem flushRecords_a_href {π : Type} (doc : Document) (v : List Char) (ca : Bool) :
    flushRecords π doc (strL "a") (strL "href") v ca = usedLinkRecords π doc ca v := by
  unfold flushRecords
  rw [if_pos ⟨Or.inr (Or.inr rfl), rfl⟩]

theorem flushRecords_tag_nil {π : Type} (doc : Document) (a v : List Char) (ca : Bool)
    (hhref : ¬a = strL "href") (hname : ¬a = strL "name") (hsrc : ¬a = strL "src")
    (hsrcset : ¬a = strL "srcset") (hdata : ¬a = strL "data") (hid : ¬a = strL "id") :
    flushRecords π doc t a v ca = [] := by
  simp [flushRecords, hhref, hname, hsrc, hsrcset, hdata, hid]

/-! ## Running the canonical tag scenarios -/

theorem run_linkEvents {σ π : Type} (W : WalkerOps σ π) (doc : Document)
    (st : HyperlinkEmitter σ π) (u : List Char)
    (ha : st.buffers.current_attribute_name = []) :
    runEmitter W doc st (linkEvents u) =
      { st with
        link_buf := st.link_buf ++
          usedLinkRecords π doc st.check_anchors (try_normalize_href_value u)
        buffers :=
          { current_tag_name := [], current_attribute_name := [],
            current_attribute_value := [], last_start_tag := strL "a" }
        current_tag_is_closing := false } := by
  have h0 : runEmitter W doc st (linkEvents u) =
      emit_current_tag W doc
        (push_attribute_value
          (push_attribute_name
            (flush_old_attribute doc (push_tag_name (init_start_tag st) (strL "a")))
            (strL "href"))
          u) := rfl
  rw [h0, flush_attr_nil doc (push_tag_name (init_start_tag st) (strL "a")) ha,
    emit_current_tag_open_nonpara _ _ _ rfl (by decide : is_paragraph_tag (strL "a") = false)]
  simp [clearAttrs, init_start_tag, push_tag_name, push_attribute_name, push_attribute_value,
    flushRecords_a_href]

theorem run_openParaEvents {σ π : Type} (W : WalkerOps σ π) (doc : Document)
    (st : HyperlinkEmitter σ π)
    (ha : st.buffers.current_attribute_name = []) :
    runEmitter W doc st openParaEvents =
      { st with
        buffers :=
          { current_tag_name := [], current_attribute_name := [],
            current_attribute_value := [], last_start_tag := strL "p" }
        current_tag_is_closing := false
        in_paragraph := true
        last_paragraph_i := st.link_buf.length
        paragraph_walker := (W.finish st.paragraph_walker).2 } := by
  have h0 : runEmitter W doc st openParaEvents =
      emit_current_tag W doc (push_tag_name (init_start_tag st) (strL "p")) := rfl
  rw [h0, emit_current_tag_open_para W doc (push_tag_name (init_start_tag st) (strL "p")) rfl
    (by decide : is_paragraph_tag (strL "p") = true)]
  simp [init_start_tag, push_tag_name, ha, flushRecords_attr_nil]

theorem run_closeParaEvents_in {σ π : Type} (W : WalkerOps σ π) (doc : Document)
    (st : HyperlinkEmitter σ π)
    (ha : st.buffers.current_attribute_name = [])
    (hip : st.in_paragraph = true) :
    runEmitter W doc st closeParaEvents =
      { st with
        link_buf := stampFrom st.last_paragraph_i (W.finish st.paragraph_walker).1 st.link_buf
        buffers :=
          { current_tag_name := [], current_attribute_name := [],
            current_attribute_value := [], last_start_tag := st.buffers.last_start_tag }
        current_tag_is_closing := true
        in_paragraph := false
        last_paragraph_i := st.link_buf.length
        paragraph_walker := (W.finish st.paragraph_walker).2 } := by
  have h0 : runEmitter W doc st closeParaEvents =
      emit_current_tag W doc (push_tag_name (init_end_tag st) (strL "p")) := rfl
  rw [h0, emit_current_tag_close_para_in W doc (push_tag_name (init_end_tag st) (strL "p")) rfl
    (by decide : is_paragraph_tag (strL "p") = true) hip]
  simp [init_end_tag, push_tag_name, ha, flushRecords_attr_nil]

theorem run_selfCloseParaEvents {σ π : Type} (W : WalkerOps σ π) (doc : Document)
    (st : HyperlinkEmitter σ π)
    (ha : st.buffers.current_attribute_name = []) :
    runEmitter W doc st selfCloseParaEvents =
      { st with
        buffers :=
          { current_tag_name := [], current_attribute_name := [],
            current_attribute_value := [], last_start_tag := strL "p" }
        current_tag_is_closing := false
        in_paragraph := true
        last_paragraph_i := st.link_buf.length
        paragraph_walker := (W.finish st.paragraph_walker).2 } := by
  have h0 : runEmitter W doc st selfCloseParaEvents =
      emit_current_tag W doc (set_self_closing (push_tag_name (init_start_tag st) (strL "p"))) :=
    rfl
  have h1 : set_self_closing (push_tag_name (init_start_tag st) (strL "p")) =
      { push_tag_name (init_start_tag st) (strL "p") with in_paragraph := false } := by
    unfold set_self_closing
    rw [if_pos]
    exact (by decide : is_paragraph_tag (strL "p") = true)
  rw [h0, h1,
    emit_current_tag_open_para W doc
      { push_tag_name (init_start_tag st) (strL "p") with in_paragraph := false } rfl
      (by decide : is_paragraph_tag (strL "p") = true)]
  simp [init_start_tag, push_tag_name, ha, flushRecords_attr_nil]

/-- Emitting a list of `<a href=u>` elements appends one `Uses` record per
good-schema URL (none for a bad-schema one) and leaves the paragraph state,
walker and flags untouched. -/
theorem run_linkList {σ π : Type} (W : WalkerOps σ π) (doc : Document) :
    ∀ (urls : List (List Char)) (st : HyperlinkEmitter σ π),
      st.buffers.current_attribute_name = [] →
      (runEmitter W doc st ((urls.map linkEvents).flatten)).link_buf =
        st.link_buf ++
          (urls.map
            (fun u =>
              usedLinkRecords π doc st.check_anchors (try_normalize_href_value u))).flatten ∧
      (runEmitter W doc st ((urls.map linkEvents).flatten)).in_paragraph = st.in_paragraph ∧
      (runEmitter W doc st ((urls.map linkEvents).flatten)).last_paragraph_i =
        st.last_paragraph_i ∧
      (runEmitter W doc st ((urls.map linkEvents).flatten)).paragraph_walker =
        st.paragraph_walker ∧
      (runEmitter W doc st ((urls.map linkEvents).flatten)).check_anchors = st.check_anchors ∧
      (runEmitter W doc st ((urls.map linkEvents).flatten)).get_paragraphs = st.get_paragraphs ∧
      (runEmitter W doc st
          ((urls.map linkEvents).flatten)).buffers.current_attribute_name = [] := by
  intro urls
  induction urls with
  | nil =>
    intro st ha
    simp [runEmitter_nil, ha]
  | cons u urls ih =>
    intro st ha
    have hflat : ((u :: urls).map linkEvents).flatten =
        linkEvents u ++ (urls.map linkEvents).flatten := by simp
    rw [hflat, runEmitter_append, run_linkEvents W doc st u ha]
    obtain ⟨g1, g2, g3, g4, g5, g6, g7⟩ := ih
      { st with
        link_buf := st.link_buf ++
          usedLinkRecords π doc st.check_anchors (try_normalize_href_value u)
        buffers :=
          { current_tag_name := [], current_attribute_name := [],
            current_attribute_value := [], last_start_tag := strL "a" }
        current_tag_is_closing := false } rfl
    refine ⟨?_, g2, g3, g4, g5, g6, g7⟩
    rw [g1]
    simp [List.append_assoc]

/-- Back-patching from exactly the length of the untouched prefix stamps
exactly the suffix. -/
theorem stampFrom_append_self {π : Type} (p : Option π) (l₁ l₂ : List (Link π)) :
    stampFrom l₁.length p (l₁ ++ l₂) = l₁ ++ l₂.map (stampLink p) := by
  unfold stampFrom
  rw [List.take_left, List.drop_left]

theorem map_single_flatten {α β : Type} (f : α → β) :
    ∀ xs : List α, (xs.map (fun x => [f x])).flatten = xs.map f := by
  intro xs
  induction xs with
  | nil => simp
  | cons x xs ih => simp [ih]

/-! ## Dispatch rows, one lemma per row of the classification table -/

theorem flushRecords_row_href {π : Type} (doc : Document) (t v : List Char) (ca : Bool)
    (ht : t = strL "link" ∨ t = strL "area" ∨ t = strL "a") :
    flushRecords π doc t (strL "href") v ca = usedLinkRecords π doc ca v := by
  unfold flushRecords
  rw [if_pos ⟨ht, rfl⟩]

theorem flushRecords_row_name {π : Type} (doc : Document) (v : List Char) (ca : Bool) :
    flushRecords π doc (strL "a") (strL "name") v ca = anchorRecords π doc ca v := by
  unfold flushRecords
  rw [if_neg (fun hh => absurd hh.2 (by decide)), if_pos ⟨rfl, rfl⟩]

theorem flushRecords_row_src {π : Type} (doc : Document) (t v : List Char) (ca : Bool)
    (ht : t = strL "img" ∨ t = strL "script" ∨ t = strL "iframe") :
    flushRecords π doc t (strL "src") v ca = usedLinkRecords π doc ca v := by
  unfold flushRecords
  rw [if_neg (fun hh => absurd hh.2 (by decide)),
    if_neg (fun hh => absurd hh.2 (by decide)), if_pos ⟨ht, rfl⟩]

theorem flushRecords_row_srcset {π : Type} (doc : Document) (v : List Char) (ca : Bool) :
    flushRecords π doc (strL "img") (strL "srcset") v ca = srcsetRecords π doc ca v := by
  unfold flushRecords
  rw [if_neg (fun hh => absurd hh.2 (by decide)),
    if_neg (fun hh => absurd hh.2 (by decide)),
    if_neg (fun hh => absurd hh.2 (by decide)), if_pos ⟨rfl, rfl⟩]

theorem flushRecords_row_data {π : Type} (doc : Document) (v : List Char) (ca : Bool) :
    flushRecords π doc (strL "object") (strL "data") v ca = usedLinkRecords π doc ca v := by
  unfold flushRecords
  rw [if_neg (fun hh => absurd hh.2 (by decide)),
    if_neg (fun hh => absurd hh.2 (by decide)),
    if_neg (fun hh => absurd hh.2 (by decide)),
    if_neg (fun hh => absurd hh.2 (by decide)), if_pos ⟨rfl, rfl⟩]

theorem flushRecords_row_id {π : Type} (doc : Document) (t v : List Char) (ca : Bool)
    (hhref : ¬((t = strL "link" ∨ t = strL "area" ∨ t = strL "a") ∧
      (strL "id" : List Char) = strL "href"))
    (hsrc : ¬((t = strL "img" ∨ t = strL "script" ∨ t = strL "iframe") ∧
      (strL "id" : List Char) = strL "src")) :
    flushRecords π doc t (strL "id") v ca = anchorRecords π doc ca v := by
  unfold flushRecords
  rw [if_neg hhref, if_neg (fun hh => absurd hh.2 (by decide)), if_neg hsrc,
    if_neg (fun hh => absurd hh.2 (by decide)),
    if_neg (fun hh => absurd hh.2 (by decide)), if_pos rfl]

theorem flushRecords_row_none {π : Type} (doc : Document) (t a v : List Char) (ca : Bool)
    (h1 : ¬((t = strL "link" ∨ t = strL "area" ∨ t = strL "a") ∧ a = strL "href"))
    (h2 : ¬(t = strL "a" ∧ a = strL "name"))
    (h3 : ¬((t = strL "img" ∨ t = strL "script" ∨ t = strL "iframe") ∧ a = strL "src"))
    (h4 : ¬(t = strL "img" ∧ a = strL "srcset"))
    (h5 : ¬(t = strL "object" ∧ a = strL "data"))
    (h6 : ¬(a = strL "id")) :
    flushRecords π doc t a v ca = [] := by
  unfold flushRecords
  rw [if_neg h1, if_neg h2, if_neg h3, if_neg h4, if_neg h5, if_neg h6]

/-- The full-state effect of emitting `<a href=u1><p/><a href=u2>`: both
records carry `paragraph = none`, but `in_paragraph` ends up `true` and
`last_paragraph_i` points right before the second record. -/
theorem run_selfCloseScenario {σ π : Type} (W : WalkerOps σ π) (doc : Document)
    (st : HyperlinkEmitter σ π) (u1 u2 : List Char)
    (ha : st.buffers.current_attribute_name = []) :
    runEmitter W doc st (linkEvents u1 ++ selfCloseParaEvents ++ linkEvents u2) =
      { st with
        link_buf :=
          st.link_buf ++ usedLinkRecords π doc st.check_anchors (try_normalize_href_value u1) ++
            usedLinkRecords π doc st.check_anchors (try_normalize_href_value u2)
        buffers :=
          { current_tag_name := [], current_attribute_name := [],
            current_attribute_value := [], last_start_tag := strL "a" }
        current_tag_is_closing := false
        in_paragraph := true
        last_paragraph_i :=
          (st.link_buf ++
            usedLinkRecords π doc st.check_anchors (try_normalize_href_value u1)).length
        paragraph_walker := (W.finish st.paragraph_walker).2 } := by
  rw [runEmitter_append, runEmitter_append, run_linkEvents W doc st u1 ha]
  rw [run_selfCloseParaEvents W doc _ rfl]
  rw [run_linkEvents W doc _ u2 rfl]

/-- A link record producible with `check_anchors = false`: a `Uses` record
whose href came from a `join` call with `check_anchors = false`. -/
def GoodLink (π : Type) (doc : Document) (l : Link π) : Prop :=
  ∃ v p, l = Link.Uses { href := doc.join false v, path := doc.path, paragraph := p }

theorem stampLink_good {π : Type} (doc : Document) (p : Option π) (l : Link π)
    (h : GoodLink π doc l) : GoodLink π doc (stampLink p l) := by
  obtain ⟨v, q, rfl⟩ := h
  exact ⟨v, p, rfl⟩

theorem usedLinkRecords_good {π : Type} (doc : Document) (value : List Char) :
    ∀ l ∈ usedLinkRecords π doc false value, GoodLink π doc l := by
  intro l hl
  unfold usedLinkRecords at hl
  split at hl
  · simp at hl
  · simp at hl
    exact ⟨value, none, hl⟩

theorem srcsetRecords_good {π : Type} (doc : Document) (value : List Char) :
    ∀ l ∈ srcsetRecords π doc false value, GoodLink π doc l := by
  intro l hl
  unfold srcsetRecords at hl
  simp at hl
  obtain ⟨v, _, rfl⟩ := hl
  exact ⟨v, none, rfl⟩

theorem flushRecords_good {π : Type} (doc : Document) (t a v : List Char) :
    ∀ l ∈ flushRecords π doc t a v false, GoodLink π doc l := by
  intro l hl
  unfold flushRecords at hl
  have hanchor : ∀ w, l ∈ anchorRecords π doc false w → GoodLink π doc l := by
    intro w hw
    simp [anchorRecords] at hw
  split at hl
  · exact usedLinkRecords_good doc _ l hl
  · split at hl
    · exact hanchor _ hl
    · split at hl
      · exact usedLinkRecords_good doc _ l hl
      · split at hl
        · exact srcsetRecords_good doc _ l hl
        · split at hl
          · exact usedLinkRecords_good doc _ l hl
          · split at hl
            · exact hanchor _ hl
            · simp at hl

/-- One callback preserves the `check_anchors` flag, and with
`check_anchors = false` it preserves "every stored link is a `Uses` record
joined with `check_anchors = false`". -/
theorem emitterStep_good {σ π : Type} (W : WalkerOps σ π) (doc : Document)
    (st : HyperlinkEmitter σ π) (e : Ev)
    (hca : st.check_anchors = false)
    (h : ∀ l ∈ st.link_buf, GoodLink π doc l) :
    (emitterStep W doc st e).check_anchors = false ∧
    ∀ l ∈ (emitterStep W doc st e).link_buf, GoodLink π doc l := by
  cases e
  case set_self_closing =>
    have hstep : emitterStep W doc st Ev.set_self_closing = set_self_closing st := rfl
    rw [hstep]
    unfold set_self_closing
    split <;> exact ⟨hca, h⟩
  case emit_string s =>
    have hstep : emitterStep W doc st (Ev.emit_string s) = emit_string W st s := rfl
    rw [hstep]
    unfold emit_string
    split <;> exact ⟨hca, h⟩
  case init_attribute =>
    have hstep : emitterStep W doc st Ev.init_attribute = flush_old_attribute doc st := rfl
    rw [hstep, flush_eq, hca]
    refine ⟨rfl, ?_⟩
    intro l hl
    rw [List.mem_append] at hl
    rcases hl with hl | hl
    · exact h l hl
    · exact flushRecords_good doc _ _ _ l hl
  case emit_current_tag =>
    have hstep : emitterStep W doc st Ev.emit_current_tag = emit_current_tag W doc st := rfl
    rw [hstep]
    unfold emit_current_tag
    rw [flush_eq, hca]
    have hext : ∀ l ∈ st.link_buf ++
        flushRecords π doc st.buffers.current_tag_name st.buffers.current_attribute_name
          (try_normalize_href_value st.buffers.current_attribute_value) false,
        GoodLink π doc l := by
      intro l hl
      rw [List.mem_append] at hl
      rcases hl with hl | hl
      · exact h l hl
      · exact flushRecords_good doc _ _ _ l hl
    by_cases hc : st.current_tag_is_closing <;>
      by_cases hp : is_paragraph_tag st.buffers.current_tag_name
    · by_cases hip : st.in_paragraph
      · simp only [hc, hp, hip, Bool.not_true, if_false, if_true, ite_true, ite_false]
        refine ⟨by trivial, ?_⟩
        intro l hl
        unfold stampFrom at hl
        rcases List.mem_append.mp hl with hl | hl
        · exact hext l (List.mem_of_mem_take hl)
        · obtain ⟨l', hl', rfl⟩ := List.mem_map.mp hl
          exact stampLink_good doc _ l' (hext l' (List.mem_of_mem_drop hl'))
      · simp only [hc, hp, hip, Bool.not_true, if_false, if_true, ite_true, ite_false]
        exact ⟨by trivial, hext⟩
    · simp only [hc, hp, Bool.not_true, if_false, if_true, ite_true, ite_false]
      exact ⟨by trivial, hext⟩
    · simp only [hc, hp, Bool.not_false, if_false, if_true, ite_true, ite_false]
      exact ⟨by trivial, hext⟩
    · simp only [hc, hp, Bool.not_false, if_false, if_true, ite_true, ite_false]
      exact ⟨by trivial, hext⟩
  all_goals exact ⟨hca, h⟩

/-- The `check_anchors = false` invariant, folded over a callback sequence. -/
theorem runEmitter_good {σ π : Type} (W : WalkerOps σ π) (doc : Document) :
    ∀ (es : List Ev) (st : HyperlinkEmitter σ π),
      st.check_anchors = false →
      (∀ l ∈ st.link_buf, GoodLink π doc l) →
      (runEmitter W doc st es).check_anchors = false ∧
      ∀ l ∈ (runEmitter W doc st es).link_buf, GoodLink π doc l := by
  intro es
  induction es with
  | nil => intro st hca h; exact ⟨hca, h⟩
  | cons e es ih =>
    intro st hca h
    obtain ⟨hca', h'⟩ := emitterStep_good W doc st e hca h
    rw [runEmitter_cons]
    exact ih (emitterStep W doc st e) hca' h'



/-! ## Claim theorems -/

/-- The scanning loop returns true exactly when the first non-scheme
character exists and is a colon. -/
theorem schemaScan_iff : ∀ rest : List Char,
    (schemaScan rest = true ↔ (rest.dropWhile isSchemeChar).head? = some ':') := by
  intro rest
  induction rest with
  | nil => simp [schemaScan]
  | cons c r ih =>
    by_cases h : isSchemeChar c
    · simpa [schemaScan, h, List.dropWhile_cons] using ih
    · simp [schemaScan, h, List.dropWhile_cons]

/-- C3: `is_bad_schema` returns false on empty input; true when the input
begins with `//`; false when the first byte is not an ASCII letter (and the
input does not begin with `//`); and for an ASCII-letter first byte it
returns true iff the first subsequent byte outside the RFC 2396 scheme
alphabet exists and is `:`.  The twelve example inputs of the spec behave as
listed. -/
theorem c3_is_bad_schema_spec :
    (is_bad_schema [] = false) ∧
    (∀ rest : List Char, is_bad_schema ('/' :: '/' :: rest) = true) ∧
    (∀ (c : Char) (rest : List Char), (c :: rest).take 2 ≠ ['/', '/'] →
      isAsciiAlphaCh c = false → is_bad_schema (c :: rest) = false) ∧
    (∀ (c : Char) (rest : List Char), isAsciiAlphaCh c = true →
      (is_bad_schema (c :: rest) = true ↔ (rest.dropWhile isSchemeChar).head? = some ':')) ∧
    (is_bad_schema (strL "//") = true ∧ is_bad_schema (strL "http:") = true ∧
      is_bad_schema (strL "http:/") = true ∧ is_bad_schema (strL "javascript:alert") = true ∧
      is_bad_schema (strL "MAILTO:x") = true) ∧
    (is_bad_schema (strL "") = false ∧ is_bad_schema (strL "http") = false ∧
      is_bad_schema (strL "http/") = false ∧ is_bad_schema (strL "/path") = false ∧
      is_bad_schema (strL "../x") = false ∧ is_bad_schema (strL "#frag") = false ∧
      is_bad_schema (strL "?q=1") = false) := by
  refine ⟨rfl, ?_, ?_, ?_, by decide, by decide⟩
  · intro rest
    rfl
  · intro c rest h2 halpha
    simp [is_bad_schema, halpha]
    intro hc hr
    exact h2 (by rw [show (c :: rest).take 2 = c :: rest.take 1 from rfl, hc, hr])
  · intro c rest halpha
    have hslash : c ≠ '/' := by
      intro hc
      subst hc
      exact absurd halpha (by decide)
    simp [is_bad_schema, halpha, schemaScan_iff]
    intro hc
    exact absurd hc hslash

/-- Witness for C3: the first-byte-not-alpha case at `"../x"` and the
scheme-scan case at `"http:/"`. -/
theorem c3_is_bad_schema_spec_witness :
    is_bad_schema ('.' :: strL "./x") = false ∧ is_bad_schema ('h' :: strL "ttp:/") = true := by
  constructor
  · exact c3_is_bad_schema_spec.2.2.1 '.' (strL "./x") (by decide) (by decide)
  · exact (c3_is_bad_schema_spec.2.2.2.1 'h' (strL "ttp:/") (by decide)).mpr (by decide)

/-- C4: `extract_used_link_srcset` appends, in candidate order, one `Uses`
record with `paragraph = none` per srcset candidate that survives the empty
and bad-schema screens; on `"a 1x, b 2x, , c"` the surviving URL tokens are
`["a","b","c"]` and three `Uses` records are produced. -/
theorem c4_srcset_extraction :
    (∀ (σ π : Type) (doc : Document) (st : HyperlinkEmitter σ π),
      extract_used_link_srcset doc st =
        { st with
          link_buf := st.link_buf ++
            srcsetRecords π doc st.check_anchors
              (try_normalize_href_value st.buffers.current_attribute_value) }) ∧
    ((srcsetCandidates (try_normalize_href_value (strL "a 1x, b 2x, , c"))).filter
        (fun v => !is_bad_schema v) = [strL "a", strL "b", strL "c"]) ∧
    ((extract_used_link_srcset docX
        (initEmitter
          { current_tag_name := strL "img", current_attribute_name := strL "srcset",
            current_attribute_value := strL "a 1x, b 2x, , c", last_start_tag := [] }
          ([] : List Char) true true :
          HyperlinkEmitter (List Char) (List Char))).link_buf =
      [Link.Uses { href := strL "a", path := strL "doc.html", paragraph := none },
       Link.Uses { href := strL "b", path := strL "doc.html", paragraph := none },
       Link.Uses { href := strL "c", path := strL "doc.html", paragraph := none }]) := by
  refine ⟨?_, by decide, by decide⟩
  intro σ π doc st
  exact extract_used_link_srcset_eq doc st

/-- C2: `flush_old_attribute` dispatches exactly as the §4.5 table states —
`Uses` rows for (link|area|a, href), (img|script|iframe, src) and
(object, data); srcset row for (img, srcset); `Defines` rows for (a, name)
and the `id` catch-all; every other pair appends nothing — and it always
clears both attribute buffers. -/
theorem c2_classification_table :
    ∀ (σ π : Type) (doc : Document) (st : HyperlinkEmitter σ π),
      ((flush_old_attribute doc st).buffers.current_attribute_name = [] ∧
        (flush_old_attribute doc st).buffers.current_attribute_value = []) ∧
      (((st.buffers.current_tag_name = strL "link" ∨ st.buffers.current_tag_name = strL "area" ∨
            st.buffers.current_tag_name = strL "a") ∧
          st.buffers.current_attribute_name = strL "href") ∨
        ((st.buffers.current_tag_name = strL "img" ∨
            st.buffers.current_tag_name = strL "script" ∨
            st.buffers.current_tag_name = strL "iframe") ∧
          st.buffers.current_attribute_name = strL "src") ∨
        (st.buffers.current_tag_name = strL "object" ∧
          st.buffers.current_attribute_name = strL "data") →
        (flush_old_attribute doc st).link_buf =
          st.link_buf ++ usedLinkRecords π doc st.check_anchors
            (try_normalize_href_value st.buffers.current_attribute_value)) ∧
      (st.buffers.current_tag_name = strL "img" ∧
          st.buffers.current_attribute_name = strL "srcset" →
        (flush_old_attribute doc st).link_buf =
          st.link_buf ++ srcsetRecords π doc st.check_anchors
            (try_normalize_href_value st.buffers.current_attribute_value)) ∧
      ((st.buffers.current_tag_name = strL "a" ∧
            st.buffers.current_attribute_name = strL "name") ∨
          st.buffers.current_attribute_name = strL "id" →
        (flush_old_attribute doc st).link_buf =
          st.link_buf ++ anchorRecords π doc st.check_anchors
            (try_normalize_href_value st.buffers.current_attribute_value)) ∧
      (¬((st.buffers.current_tag_name = strL "link" ∨
            st.buffers.current_tag_name = strL "area" ∨
            st.buffers.current_tag_name = strL "a") ∧
          st.buffers.current_attribute_name = strL "href") →
        ¬(st.buffers.current_tag_name = strL "a" ∧
          st.buffers.current_attribute_name = strL "name") →
        ¬((st.buffers.current_tag_name = strL "img" ∨
            st.buffers.current_tag_name = strL "script" ∨
            st.buffers.current_tag_name = strL "iframe") ∧
          st.buffers.current_attribute_name = strL "src") →
        ¬(st.buffers.current_tag_name = strL "img" ∧
          st.buffers.current_attribute_name = strL "srcset") →
        ¬(st.buffers.current_tag_name = strL "object" ∧
          st.buffers.current_attribute_name = strL "data") →
        ¬(st.buffers.current_attribute_name = strL "id") →
        (flush_old_attribute doc st).link_buf = st.link_buf) := by
  intro σ π doc st
  refine ⟨⟨by rw [flush_eq], by rw [flush_eq]⟩, ?_, ?_, ?_, ?_⟩
  · intro h
    rw [flush_eq]
    rcases h with ⟨ht, ha⟩ | ⟨ht, ha⟩ | ⟨ht, ha⟩
    · rw [ha, flushRecords_row_href _ _ _ _ ht]
    · rw [ha, flushRecords_row_src _ _ _ _ ht]
    · rw [ht, ha, flushRecords_row_data]
  · intro h
    rw [flush_eq, h.1, h.2, flushRecords_row_srcset]
  · intro h
    rw [flush_eq]
    rcases h with ⟨ht, ha⟩ | ha
    · rw [ht, ha, flushRecords_row_name]
    · rw [ha,
        @flushRecords_row_id π doc st.buffers.current_tag_name
          (try_normalize_href_value st.buffers.current_attribute_value) st.check_anchors
          (fun hh => absurd hh.2 (by decide)) (fun hh => absurd hh.2 (by decide))]
  · intro h1 h2 h3 h4 h5 h6
    rw [flush_eq, flushRecords_row_none _ _ _ _ _ h1 h2 h3 h4 h5 h6, List.append_nil]

/-- Witness for C2: the (img, srcset) row at a concrete buffer state. -/
theorem c2_classification_table_witness :
    (flush_old_attribute docX
        (initEmitter
          { current_tag_name := strL "img", current_attribute_name := strL "srcset",
            current_attribute_value := strL "a 1x, b 2x, , c", last_start_tag := [] }
          ([] : List Char) true true :
          HyperlinkEmitter (List Char) (List Char))).link_buf =
      [] ++ srcsetRecords (List Char) docX true
        (try_normalize_href_value (strL "a 1x, b 2x, , c")) := by
  exact (c2_classification_table (List Char) (List Char) docX
    (initEmitter
      { current_tag_name := strL "img", current_attribute_name := strL "srcset",
        current_attribute_value := strL "a 1x, b 2x, , c", last_start_tag := [] }
      ([] : List Char) true true)).2.2.1 ⟨rfl, rfl⟩

/-- C7: in every state reachable from an initial state (empty `link_buf`,
`last_paragraph_i = 0`) by any callback sequence,
`last_paragraph_i ≤ link_buf.length`. -/
theorem c7_last_paragraph_i_le :
    ∀ (σ π : Type) (W : WalkerOps σ π) (doc : Document) (bufs : ParserBuffers) (w : σ)
      (gp ca : Bool) (es : List Ev),
      (runEmitter W doc (initEmitter bufs w gp ca) es).last_paragraph_i ≤
        (runEmitter W doc (initEmitter bufs w gp ca) es).link_buf.length := by
  intro σ π W doc bufs w gp ca es
  exact (runEmitter_inv W doc es (initEmitter bufs w gp ca) (Nat.le_refl 0)).2.1

/-- C8: `ParserBuffers.reset` yields exactly the default (all-empty) buffers,
so a parse started after `reset` equals a parse started with fresh buffers. -/
theorem c8_buffer_reset :
    (∀ b : ParserBuffers, b.reset = ParserBuffers.mkDefault) ∧
    (∀ (σ π : Type) (W : WalkerOps σ π) (doc : Document) (b : ParserBuffers) (w : σ)
      (gp ca : Bool) (es : List Ev),
      runEmitter W doc (initEmitter b.reset w gp ca) es =
        runEmitter W doc (initEmitter ParserBuffers.mkDefault w gp ca) es) :=
  ⟨fun _ => rfl, fun _ _ _ _ _ _ _ _ _ => rfl⟩

/-- C9: the doctype, comment, error and EOF callbacks leave the emitter state
— scratch buffers, paragraph state and `link_buf` — unchanged (their bodies
are empty; in this embedding each is the identity on the state, and every
callback is a total function, so no callback can fail or abort the parse). -/
theorem c9_noop_callbacks :
    ∀ (σ π : Type) (W : WalkerOps σ π) (doc : Document) (st : HyperlinkEmitter σ π)
      (s : List Char),
      emitterStep W doc st Ev.emit_current_comment = st ∧
      emitterStep W doc st Ev.emit_current_doctype = st ∧
      emitterStep W doc st Ev.emit_eof = st ∧
      emitterStep W doc st Ev.emit_error = st ∧
      emitterStep W doc st Ev.init_comment = st ∧
      emitterStep W doc st Ev.init_doctype = st ∧
      emitterStep W doc st (Ev.push_comment s) = st ∧
      emitterStep W doc st (Ev.push_doctype_name s) = st ∧
      emitterStep W doc st (Ev.push_doctype_public_identifier s) = st ∧
      emitterStep W doc st (Ev.push_doctype_system_identifier s) = st ∧
      emitterStep W doc st (Ev.set_doctype_public_identifier s) = st ∧
      emitterStep W doc st (Ev.set_doctype_system_identifier s) = st ∧
      emitterStep W doc st Ev.set_force_quirks = st := by
  intro σ π W doc st s
  exact ⟨rfl, rfl, rfl, rfl, rfl, rfl, rfl, rfl, rfl, rfl, rfl, rfl, rfl⟩

/-- C6: with `check_anchors = false`, no reachable state ever stores a
`Defines` record, and every stored record is a `Uses` record whose href came
from a `document.join` call that was passed `check_anchors = false`. -/
theorem c6_check_anchors_false :
    ∀ (σ π : Type) (W : WalkerOps σ π) (doc : Document) (bufs : ParserBuffers) (w : σ)
      (gp : Bool) (es : List Ev) (l : Link π),
      l ∈ (runEmitter W doc (initEmitter bufs w gp false) es).link_buf →
      (∀ d : DefinedLink, l ≠ Link.Defines d) ∧
      ∃ v p, l = Link.Uses { href := doc.join false v, path := doc.path, paragraph := p } := by
  intro σ π W doc bufs w gp es l hl
  have hg := (runEmitter_good W doc es (initEmitter bufs w gp false) rfl
    (by intro l' hl'; exact absurd hl' (List.not_mem_nil l'))).2 l hl
  obtain ⟨v, p, rfl⟩ := hg
  exact ⟨fun d h => Link.noConfusion h, ⟨v, p, rfl⟩⟩

/-- Witness for C6: a concrete parse of `<a href=x>` with
`check_anchors = false`. -/
theorem c6_check_anchors_false_witness :
    (∀ d : DefinedLink,
      (Link.Uses { href := strL "x", path := strL "doc.html", paragraph := none } :
        Link (List Char)) ≠ Link.Defines d) ∧
    ∃ v p,
      (Link.Uses { href := strL "x", path := strL "doc.html", paragraph := none } :
        Link (List Char)) =
        Link.Uses { href := docX.join false v, path := docX.path, paragraph := p } := by
  exact c6_check_anchors_false (List Char) (List Char) accumWalker docX
    ParserBuffers.mkDefault [] true (linkEvents (strL "x"))
    (Link.Uses { href := strL "x", path := strL "doc.html", paragraph := none })
    (by decide)

/-- C10: `set_self_closing` followed by `emit_current_tag` on an opening
paragraph-class tag still opens a paragraph — `emit_current_tag` consults no
self-closing flag, so it overwrites the `in_paragraph = false` that
`set_self_closing` forced, sets `last_paragraph_i` to `link_buf.len()`, and
copies the tag name into `last_start_tag`. -/
theorem c10_self_closing_flag_ignored :
    ∀ (σ π : Type) (W : WalkerOps σ π) (doc : Document) (st : HyperlinkEmitter σ π),
      st.buffers.current_attribute_name = [] →
      st.current_tag_is_closing = false →
      is_paragraph_tag st.buffers.current_tag_name = true →
      (emit_current_tag W doc (set_self_closing st)).in_paragraph = true ∧
      (emit_current_tag W doc (set_self_closing st)).last_paragraph_i = st.link_buf.length ∧
      (emit_current_tag W doc (set_self_closing st)).buffers.last_start_tag =
        st.buffers.current_tag_name := by
  intro σ π W doc st ha hc hp
  have h1 : set_self_closing st = { st with in_paragraph := false } := by
    unfold set_self_closing
    rw [if_pos hp]
  rw [h1, emit_current_tag_open_para W doc { st with in_paragraph := false } hc hp]
  refine ⟨rfl, ?_, rfl⟩
  simp only []
  rw [show ({ st with in_paragraph := false } :
      HyperlinkEmitter σ π).buffers.current_attribute_name = [] from ha]
  rw [flushRecords_attr_nil, List.append_nil]

/-- Witness for C10: a concrete `<li/>` start tag between no attributes. -/
theorem c10_self_closing_flag_ignored_witness :
    (emit_current_tag accumWalker docX
        (set_self_closing
          (push_tag_name
            (init_start_tag
              (initEmitter ParserBuffers.mkDefault ([] : List Char) true true :
                HyperlinkEmitter (List Char) (List Char)))
            (strL "li")))).in_paragraph = true ∧
    (emit_current_tag accumWalker docX
        (set_self_closing
          (push_tag_name
            (init_start_tag
              (initEmitter ParserBuffers.mkDefault ([] : List Char) true true :
                HyperlinkEmitter (List Char) (List Char)))
            (strL "li")))).last_paragraph_i = 0 ∧
    (emit_current_tag accumWalker docX
        (set_self_closing
          (push_tag_name
            (init_start_tag
              (initEmitter ParserBuffers.mkDefault ([] : List Char) true true :
                HyperlinkEmitter (List Char) (List Char)))
            (strL "li")))).buffers.last_start_tag = strL "li" := by
  exact c10_self_closing_flag_ignored (List Char) (List Char) accumWalker docX
    (push_tag_name
      (init_start_tag
        (initEmitter ParserBuffers.mkDefault ([] : List Char) true true))
      (strL "li"))
    rfl rfl (by decide)

/-- Stamping the records of a run of good-schema `<a href>` elements gives
one `Uses` record per URL, all carrying the same fingerprint. -/
theorem stamped_usedLinkRecords_flatten {π : Type} (doc : Document) (ca : Bool)
    (P : Option π) :
    ∀ urls : List (List Char),
      (∀ u ∈ urls, is_bad_schema (try_normalize_href_value u) = false) →
      ((urls.map
          (fun u => usedLinkRecords π doc ca (try_normalize_href_value u))).flatten).map
          (stampLink P) =
        urls.map (fun u => Link.Uses
          { href := doc.join ca (try_normalize_href_value u), path := doc.path,
            paragraph := P }) := by
  intro urls
  induction urls with
  | nil => intro _; simp
  | cons u urls ih =>
    intro hg
    have hu : is_bad_schema (try_normalize_href_value u) = false :=
      hg u (List.mem_cons_self u urls)
    have ih' := ih (fun x hx => hg x (List.mem_cons_of_mem u hx))
    rw [List.map_cons, List.flatten_cons, List.map_append, ih', List.map_cons]
    simp [usedLinkRecords, hu, stampLink]

/-- C1: closing a paragraph-class tag while `in_paragraph` is true stamps
exactly the `Uses` records at indices `last_paragraph_i ..` with the
fingerprint returned by `finish_paragraph`, leaves `Defines` records and all
records below `last_paragraph_i` unchanged, resets `in_paragraph`, and moves
`last_paragraph_i` to `link_buf.len()`; consequently an
open-paragraph / N-links / close-paragraph callback sequence gives exactly
those N links one shared fingerprint and stamps nothing outside the range. -/
theorem c1_paragraph_backpatch :
    (∀ (σ π : Type) (W : WalkerOps σ π) (doc : Document) (st : HyperlinkEmitter σ π),
      st.buffers.current_attribute_name = [] →
      st.current_tag_is_closing = true →
      is_paragraph_tag st.buffers.current_tag_name = true →
      st.in_paragraph = true →
      (emit_current_tag W doc st).in_paragraph = false ∧
      (emit_current_tag W doc st).last_paragraph_i = st.link_buf.length ∧
      (emit_current_tag W doc st).link_buf.length = st.link_buf.length ∧
      (∀ i, i < st.last_paragraph_i →
        (emit_current_tag W doc st).link_buf[i]? = st.link_buf[i]?) ∧
      (∀ (i : Nat) (u : UsedLink π), st.last_paragraph_i ≤ i →
        st.link_buf[i]? = some (Link.Uses u) →
        (emit_current_tag W doc st).link_buf[i]? =
          some (Link.Uses { u with paragraph := (W.finish st.paragraph_walker).1 })) ∧
      (∀ (i : Nat) (d : DefinedLink), st.link_buf[i]? = some (Link.Defines d) →
        (emit_current_tag W doc st).link_buf[i]? = some (Link.Defines d))) ∧
    (∀ (σ π : Type) (W : WalkerOps σ π) (doc : Document) (st : HyperlinkEmitter σ π)
      (urls : List (List Char)),
      st.buffers.current_attribute_name = [] →
      (∀ u ∈ urls, is_bad_schema (try_normalize_href_value u) = false) →
      (runEmitter W doc st
          (openParaEvents ++ (urls.map linkEvents).flatten ++ closeParaEvents)).link_buf =
        st.link_buf ++ urls.map (fun u => Link.Uses
          { href := doc.join st.check_anchors (try_normalize_href_value u), path := doc.path,
            paragraph := (W.finish (W.finish st.paragraph_walker).2).1 })) := by
  constructor
  · intro σ π W doc st ha hc hp hip
    have hflat : flushRecords π doc st.buffers.current_tag_name
        st.buffers.current_attribute_name
        (try_normalize_href_value st.buffers.current_attribute_value) st.check_anchors = [] := by
      rw [ha, flushRecords_attr_nil]
    rw [emit_current_tag_close_para_in W doc st hc hp hip, hflat, List.append_nil]
    refine ⟨rfl, rfl, stampFrom_length _ _ _, ?_, ?_, ?_⟩
    · intro i hi
      exact stampFrom_getElem_lt _ _ _ _ hi
    · intro i u hge hu
      rw [stampFrom_getElem_ge _ _ _ _ hge, hu]
      rfl
    · intro i d hd
      by_cases hlt : i < st.last_paragraph_i
      · rw [stampFrom_getElem_lt _ _ _ _ hlt, hd]
      · rw [stampFrom_getElem_ge _ _ _ _ (Nat.le_of_not_lt hlt), hd]
        rfl
  · intro σ π W doc st urls ha hgood
    rw [runEmitter_append, runEmitter_append, run_openParaEvents W doc st ha]
    obtain ⟨g1, g2, g3, g4, g5, g6, g7⟩ := run_linkList W doc urls
      { st with
        buffers :=
          { current_tag_name := [], current_attribute_name := [],
            current_attribute_value := [], last_start_tag := strL "p" }
        current_tag_is_closing := false
        in_paragraph := true
        last_paragraph_i := st.link_buf.length
        paragraph_walker := (W.finish st.paragraph_walker).2 } rfl
    rw [run_closeParaEvents_in W doc _ g7 g2]
    simp only [g1, g3, g4]
    rw [stampFrom_append_self, stamped_usedLinkRecords_flatten doc st.check_anchors _ urls hgood]

/-- Witness for C1: `<p><a href=x><a href=y></p>` from a fresh emitter. -/
theorem c1_paragraph_backpatch_witness :
    (runEmitter accumWalker docX
        (initEmitter ParserBuffers.mkDefault ([] : List Char) true true)
        (openParaEvents ++ ([strL "x", strL "y"].map linkEvents).flatten ++
          closeParaEvents)).link_buf =
      [Link.Uses { href := strL "x", path := strL "doc.html", paragraph := none },
       Link.Uses { href := strL "y", path := strL "doc.html", paragraph := none }] := by
  have h := c1_paragraph_backpatch.2 (List Char) (List Char) accumWalker docX
    (initEmitter ParserBuffers.mkDefault ([] : List Char) true true)
    [strL "x", strL "y"] rfl (by decide)
  rw [h]
  decide

/-- Counterexample to C5 as stated: after `<a href=x><p/><a href=y>`, the
later callbacks `emit_string "t"` and `</p>` stamp the second link with the
fingerprint of `"t"` — its paragraph field does not stay `none` "regardless
of later callbacks". -/
theorem c5_self_close_counterexample :
    (runEmitter accumWalker docX
        (initEmitter ParserBuffers.mkDefault ([] : List Char) true true)
        (linkEvents (strL "x") ++ selfCloseParaEvents ++ linkEvents (strL "y") ++
          [Ev.emit_string (strL "t")] ++ closeParaEvents)).link_buf =
      [Link.Uses { href := strL "x", path := strL "doc.html", paragraph := none },
       Link.Uses { href := strL "y", path := strL "doc.html", paragraph := some (strL "t") }] ∧
    some (strL "t") ≠ (none : Option (List Char)) :=
  ⟨by decide, by decide⟩

/-- C5 (amended): processing `link, self-closing paragraph-class start tag,
link` stamps neither link at that point — both records still carry
`paragraph = none` — and the first link is never stamped by any later
callbacks; but because `emit_current_tag` ignores the self-closing flag, the
state is left with `in_paragraph = true` and `last_paragraph_i` pointing
just before the second link, so a later closing paragraph-class tag stamps
the second link (see the counterexample). -/
theorem c5_self_close_amended :
    (∀ (σ π : Type) (W : WalkerOps σ π) (doc : Document) (st : HyperlinkEmitter σ π)
      (u1 u2 : List Char),
      st.buffers.current_attribute_name = [] →
      (runEmitter W doc st (linkEvents u1 ++ selfCloseParaEvents ++ linkEvents u2)).link_buf =
        st.link_buf ++ usedLinkRecords π doc st.check_anchors (try_normalize_href_value u1) ++
          usedLinkRecords π doc st.check_anchors (try_normalize_href_value u2) ∧
      (runEmitter W doc st
          (linkEvents u1 ++ selfCloseParaEvents ++ linkEvents u2)).in_paragraph = true ∧
      (runEmitter W doc st
          (linkEvents u1 ++ selfCloseParaEvents ++ linkEvents u2)).last_paragraph_i =
        (st.link_buf ++
          usedLinkRecords π doc st.check_anchors (try_normalize_href_value u1)).length) ∧
    (∀ (σ π : Type) (W : WalkerOps σ π) (doc : Document) (st : HyperlinkEmitter σ π)
      (u1 u2 : List Char) (es : List Ev) (i : Nat),
      st.buffers.current_attribute_name = [] →
      i < (st.link_buf ++
          usedLinkRecords π doc st.check_anchors (try_normalize_href_value u1)).length →
      (runEmitter W doc
          (runEmitter W doc st (linkEvents u1 ++ selfCloseParaEvents ++ linkEvents u2))
          es).link_buf[i]? =
        (st.link_buf ++ usedLinkRecords π doc st.check_anchors (try_normalize_href_value u1) ++
          usedLinkRecords π doc st.check_anchors (try_normalize_href_value u2))[i]?) := by
  constructor
  · intro σ π W doc st u1 u2 ha
    rw [run_selfCloseScenario W doc st u1 u2 ha]
    exact ⟨rfl, rfl, rfl⟩
  · intro σ π W doc st u1 u2 es i ha hi
    rw [run_selfCloseScenario W doc st u1 u2 ha]
    have hle :
        (st.link_buf ++
            usedLinkRecords π doc st.check_anchors (try_normalize_href_value u1)).length ≤
          (st.link_buf ++ usedLinkRecords π doc st.check_anchors (try_normalize_href_value u1) ++
            usedLinkRecords π doc st.check_anchors (try_normalize_href_value u2)).length := by
      simp [List.length_append]
    exact (runEmitter_inv W doc es _ hle).2.2 i hi

/-- Witness for C5 (amended): immediately after `<a href=x><p/><a href=y>`,
both links carry `paragraph = none`. -/
theorem c5_self_close_amended_witness :
    (runEmitter accumWalker docX
        (initEmitter ParserBuffers.mkDefault ([] : List Char) true true)
        (linkEvents (strL "x") ++ selfCloseParaEvents ++ linkEvents (strL "y"))).link_buf =
      [Link.Uses { href := strL "x", path := strL "doc.html", paragraph := none },
       Link.Uses { href := strL "y", path := strL "doc.html", paragraph := none }] := by
  have h := c5_self_close_amended.1 (List Char) (List Char) accumWalker docX
    (initEmitter ParserBuffers.mkDefault ([] : List Char) true true) (strL "x") (strL "y") rfl
  rw [h.1]
  decide
